import Mathlib

/-!
Verification of the Slotty availability monitor and dispatch engine.

The definitions below are a shallow embedding of the worker
(`performSlotCheck` / `performSingleCheck`), the subscription store
(`DB.createRun`, `DB.listActiveNotifications`) and the message formatter
(`Notifier.formatMessage`) from the repository sources.  Timestamps are
unix-epoch seconds (`Nat`), seat counts are `Int`, JS `undefined`/`null`
fields are `Option`, and fallible calls return `Except String`.
-/

namespace Slotty

/-- Decidable equality for `Except`, so concrete outcomes can be checked by
`decide`. -/
instance {ε α : Type} [DecidableEq ε] [DecidableEq α] : DecidableEq (Except ε α) := fun x y =>
  match x, y with
  | .ok a, .ok b =>
    if h : a = b then .isTrue (by rw [h]) else .isFalse (by intro hc; cases hc; exact h rfl)
  | .error a, .error b =>
    if h : a = b then .isTrue (by rw [h]) else .isFalse (by intro hc; cases hc; exact h rfl)
  | .ok _, .error _ => .isFalse (by intro hc; cases hc)
  | .error _, .ok _ => .isFalse (by intro hc; cases hc)

/-! ## JS values (for the message formatter variable bag) -/

/-- A JavaScript value as far as the formatter cares: enough to decide
truthiness and to coerce to a string. -/
inductive JSVal where
  | undef : JSVal
  | nullV : JSVal
  | str : String → JSVal
  | num : Int → JSVal
  | boolean : Bool → JSVal
deriving DecidableEq, Repr

/-- JS truthiness of a value (`undefined`, `null`, `''`, `0`, `false` are falsy). -/
def jsTruthy : JSVal → Bool
  | .undef => false
  | .nullV => false
  | .str s => s != ""
  | .num n => n != 0
  | .boolean b => b

/-- JS string coercion of a value (what `String.prototype.replace` would splice in). -/
def jsToString : JSVal → String
  | .undef => "undefined"
  | .nullV => "null"
  | .str s => s
  | .num n => toString n
  | .boolean b => if b then "true" else "false"

/-! ## Case-insensitive global replace (the `new RegExp(key, 'ig')` substitution) -/

/-- Case-insensitive prefix test on character lists: every pattern character
matches the corresponding character up to `Char.toLower`. -/
def ciStartsWith : List Char → List Char → Bool
  | [], _ => true
  | _ :: _, [] => false
  | p :: ps, c :: cs => (p.toLower == c.toLower) && ciStartsWith ps cs

/-- Case-insensitive occurrence test: some suffix of the text starts with the pattern. -/
def containsCI (pat : List Char) : List Char → Bool
  | [] => ciStartsWith pat []
  | c :: cs => ciStartsWith pat (c :: cs) || containsCI pat cs

/-- Fuelled worker for the global case-insensitive replace.  At a match the
replacement is emitted and scanning resumes after the matched text (matches
are not rescanned within the same pass, as with a JS global regex replace). -/
def replaceCIAux (pat rep : List Char) : Nat → List Char → List Char
  | 0, _ => []
  | _ + 1, [] => []
  | fuel + 1, c :: cs =>
    if 0 < pat.length && ciStartsWith pat (c :: cs) then
      rep ++ replaceCIAux pat rep fuel ((c :: cs).drop pat.length)
    else
      c :: replaceCIAux pat rep fuel cs

/-- Global case-insensitive literal replace, the embedding of
`msg.replace(new RegExp(escapedKey, 'ig'), value)` for the `$name` keys used
by the notifier (which contain no regex metacharacters beyond the escaped `$`). -/
def replaceCI (s pat rep : String) : String :=
  (replaceCIAux pat.toList rep.toList (s.toList.length + 1) s.toList).asString

/-! ## Message formatter (`Notifier.formatMessage`, src/server/notify.js) -/

/-- The `FALLBACK_VARIABLE_VALUE` constant of the notifier. -/
def FALLBACK_VARIABLE_VALUE : String := "-"

/-- Text spliced in for one variable: `allVariables[key] || FALLBACK_VARIABLE_VALUE`
followed by the string coercion `replace` applies to its replacement argument. -/
def substitutedText (v : JSVal) : String :=
  if jsTruthy v then jsToString v else FALLBACK_VARIABLE_VALUE

/-- Object-spread assignment of one key: an existing key is overwritten in
place (JS object insertion order is preserved), a new key is appended. -/
def objSet (l : List (String × JSVal)) (k : String) (v : JSVal) : List (String × JSVal) :=
  if l.any (fun kv => kv.1 == k) then
    l.map (fun kv => if kv.1 == k then (k, v) else kv)
  else
    l ++ [(k, v)]

/-- The object spread `\x7b $app, $time, ...variables \x7d`: base entries first,
then the caller's variables, later keys overriding earlier ones in place. -/
def objMerge (base bag : List (String × JSVal)) : List (String × JSVal) :=
  bag.foldl (fun acc kv => objSet acc kv.1 kv.2) base

/-- Embedding of `Notifier.formatMessage(messageType, variables)`.  `appName`
and `timeStr` stand for `config.appName` and `new Date().toUTCString()`.
The reduce over `Object.keys(allVariables)` replaces each key
case-insensitively and globally, falsy values rendering as the fallback. -/
def formatMessage (appName timeStr : String) (messageType : String)
    (bag : List (String × JSVal)) : String :=
  let allVariables := objMerge
    [("$app", JSVal.str appName), ("$time", JSVal.str timeStr)] bag
  allVariables.foldl (fun msg kv => replaceCI msg kv.1 (substitutedText kv.2)) messageType

/-! ## Course data fetched from the external source (GraphQL `Slots` query) -/

/-- A meeting nested inside a section of the fetched course data.  Fields can
be `null`/absent in the raw payload, hence the `Option`s. -/
structure MeetingData where
  id : Option String
  available : Option Int
  capacity : Option Int
deriving DecidableEq, Repr

/-- A section of the fetched course data.  `meetings` may be absent
(`meetings || []` in the worker treats that as the empty list). -/
structure SectionData where
  id : Option String
  available : Option Int
  capacity : Option Int
  meetings : Option (List MeetingData)
deriving DecidableEq, Repr

/-- The `data.course` object: a list of sections.  A missing course or a
missing sections list is represented by `none` at the use sites. -/
structure CourseData where
  sections : List SectionData
deriving DecidableEq, Repr

/-- One entry of the flattened sections-and-meetings candidate list the
worker matches a section criterion against. -/
structure Candidate where
  id : Option String
  available : Option Int
  capacity : Option Int
deriving DecidableEq, Repr

/-- The event record the worker computes: `event.availableSlots` is always a
number on every code path, `event.totalSlots` is copied straight from the
matched section/meeting so it may be absent. -/
structure EventData where
  availableSlots : Int
  totalSlots : Option Int
deriving DecidableEq, Repr

/-! ## The evaluator inside `performSingleCheck` (worker source, lines 172-207) -/

/-- JS whitespace trim on a character list (both ends). -/
def trimChars (s : List Char) : List Char :=
  ((s.dropWhile Char.isWhitespace).reverse.dropWhile Char.isWhitespace).reverse

/-- Embedding of `str.toLowerCase().trim()`, the cleaning applied to both the
subscription criterion and each candidate identifier. -/
def cleanChars (s : List Char) : List Char :=
  trimChars (s.map Char.toLower)

/-- Section converted to a candidate entry. -/
def sectionCandidate (s : SectionData) : Candidate :=
  ⟨s.id, s.available, s.capacity⟩

/-- Meeting converted to a candidate entry. -/
def meetingCandidate (m : MeetingData) : Candidate :=
  ⟨m.id, m.available, m.capacity⟩

/-- The flattened candidate list:
`sections.concat(sections.flatMap((s) => s.meetings || []))`. -/
def candidates (sections : List SectionData) : List Candidate :=
  sections.map sectionCandidate ++
    sections.flatMap (fun s => (s.meetings.getD []).map meetingCandidate)

/-- The filter applied before matching: the id must be a non-empty string and
both seat counts must be non-null. -/
def candidateOk (c : Candidate) : Bool :=
  match c.id with
  | some i => 0 < i.length && c.available.isSome && c.capacity.isSome
  | none => false

/-- Criterion branch of the evaluator: find the first valid candidate whose
cleaned id equals the cleaned criterion; on a miss report zero/zero.  The
`getD 0` on `available` is justified by `candidateOk` having required the
field to be present. -/
def criterionEvent (key : List Char) (sections : List SectionData) : EventData :=
  match ((candidates sections).filter candidateOk).find?
      (fun c => cleanChars (c.id.getD "").toList == key) with
  | some c => ⟨c.available.getD 0, c.capacity⟩
  | none => ⟨0, some 0⟩

/-- One step of the reduce
`(max, s) => s.available > max.available ? s : max`; a null `available`
compares false, so the accumulator is kept. -/
def maxStep (mx : EventData) (s : SectionData) : EventData :=
  match s.available with
  | some a => if mx.availableSlots < a then ⟨a, s.capacity⟩ else mx
  | none => mx

/-- Whole-course branch of the evaluator: the reduce over the sections
starting from `\x7b available: 0, capacity: 0 \x7d`. -/
def maxEvent (sections : List SectionData) : EventData :=
  sections.foldl maxStep ⟨0, some 0⟩

/-- Embedding of the evaluator: clean the criterion, use the criterion branch
when the cleaned criterion is non-empty, the whole-course branch otherwise
(an absent criterion and a criterion that cleans to the empty string both
fail the JS `key && key.length` test). -/
def computeEvent (sectionKey : Option String) (sections : List SectionData) : EventData :=
  match sectionKey with
  | some sk =>
    let key := cleanChars sk.toList
    if 0 < key.length then criterionEvent key sections else maxEvent sections
  | none => maxEvent sections

/-! ## Store rows and state (`DB`, src db.js) -/

/-- A row of the `runs` table. -/
structure RunRow where
  run_id : Nat
  notification_id : Nat
  error : Option String
  timestamp : Nat
  notification_sent : Bool
deriving DecidableEq, Repr

/-- A row of the `notifications` table.  The `verified` flag is
Modelled from the spec: the schema revision holding the contact-verification
column is not among the sources, only the worker that reads
`notification.verified` is; the spec lists `verified` (contact ownership
confirmed) beside `enabled` among the subscription flags. -/
structure NotificationRow where
  notification_id : Nat
  last_run_id : Option Nat
  access_key : String
  institution_key : String
  course_key : String
  section_key : Option String
  term_key : String
  contact : String
  enabled : Bool
  verified : Bool
deriving DecidableEq, Repr

/-- The persistent store: both tables plus the next `AUTOINCREMENT` run id. -/
structure DBState where
  notifications : List NotificationRow
  runs : List RunRow
  nextRunId : Nat
deriving DecidableEq, Repr

/-- The join row produced by `toActiveNotification`: notification fields
merged over run fields, `notificationSent` coerced to `false` when the run is
absent, the bare `id` discarded. -/
structure ActiveNotification where
  notificationId : Nat
  lastRunId : Option Nat
  accessKey : String
  institutionKey : String
  courseKey : String
  sectionKey : Option String
  termKey : String
  contact : String
  enabled : Bool
  verified : Bool
  runId : Option Nat
  error : Option String
  timestamp : Option Nat
  notificationSent : Bool
deriving DecidableEq, Repr

/-- Merge of `toRun` and `toNotification` output for a joined row. -/
def toActiveNotification (n : NotificationRow) (r : Option RunRow) : ActiveNotification where
  notificationId := n.notification_id
  lastRunId := n.last_run_id
  accessKey := n.access_key
  institutionKey := n.institution_key
  courseKey := n.course_key
  sectionKey := n.section_key
  termKey := n.term_key
  contact := n.contact
  enabled := n.enabled
  verified := n.verified
  runId := r.map RunRow.run_id
  error := r.bind RunRow.error
  timestamp := r.map RunRow.timestamp
  notificationSent := match r with
    | some row => row.notification_sent
    | none => false

/-- True when some row of the `notifications` table has the given id; the
`UPDATE ... WHERE notification_id = ?` inside `createRun` changes a row
exactly when this holds. -/
def hasNotification (s : DBState) (nid : Nat) : Bool :=
  s.notifications.any (fun n => n.notification_id == nid)

/-- All stored run ids are below the `AUTOINCREMENT` counter.  This is the
freshness invariant sqlite guarantees for `lastID`. -/
def RunsFresh (s : DBState) : Prop :=
  ∀ r ∈ s.runs, r.run_id < s.nextRunId

instance (s : DBState) : Decidable (RunsFresh s) := by
  unfold RunsFresh; infer_instance

/-! ## `DB.createRun` -/

/-- The argument object of `createRun`; absent fields are `none`
(`timestamp` defaults to the current date at the call). -/
structure RunInput where
  notificationId : Option Nat := none
  error : Option String := none
  timestamp : Option Nat := none
  notificationSent : Option Bool := none
deriving DecidableEq, Repr

/-- The synthesized error thrown when the pointer update changes zero rows. -/
def pointerUpdateFailedMsg : String :=
  "Failed to update the related notification, please try again"

/-- The validation error of `createRun`. -/
def createRunValidationMsg : String :=
  "Run must have a notification ID and notificationSent state specified"

/-- The pointer update
`UPDATE notifications SET last_run_id = ? WHERE notification_id = ?`. -/
def setLastRun (nid rid : Nat) (l : List NotificationRow) : List NotificationRow :=
  l.map (fun n => if n.notification_id == nid then { n with last_run_id := some rid } else n)

/-- Embedding of `DB.createRun(run, defaultNotificationId)`.  `updErr`
injects a thrown error from the pointer-update statement (a thrown update is
modelled as having changed nothing); `delErr` injects a thrown error from
the rollback `DELETE FROM runs` statement — the source wraps that delete in
try/catch with `console.warn`, so a failing rollback is swallowed: the
just-inserted run row then remains while the original error is still thrown;
`now` stands for `new Date()`.  The returned state is paired with the
outcome so rollback (or its failure) is observable. -/
def createRun (input : RunInput) (defaultNotificationId : Option Nat)
    (updErr delErr : Option String) (now : Nat) (s : DBState) :
    DBState × Except String RunRow :=
  let myNotificationId := match input.notificationId with
    | none => defaultNotificationId
    | some i => some i
  match myNotificationId, input.notificationSent with
  | some nid, some sent =>
    let ts := input.timestamp.getD now
    let newRow : RunRow := ⟨s.nextRunId, nid, input.error, ts, sent⟩
    let inserted : List RunRow := s.runs ++ [newRow]
    match updErr with
    | some e =>
      -- pointer update threw: try to delete the just-inserted run (a
      -- throwing delete is caught and only warned, leaving the row), rethrow
      (⟨s.notifications,
        (match delErr with
         | some _ => inserted
         | none => inserted.filter (fun r => r.run_id != newRow.run_id)),
        s.nextRunId + 1⟩, .error e)
    | none =>
      let changes := (s.notifications.filter (fun n => n.notification_id == nid)).length
      if changes == 0 then
        -- pointer update matched nothing: try to delete the run (failure
        -- swallowed as above), throw the synthesized error
        (⟨s.notifications,
          (match delErr with
           | some _ => inserted
           | none => inserted.filter (fun r => r.run_id != newRow.run_id)),
          s.nextRunId + 1⟩, .error pointerUpdateFailedMsg)
      else
        (⟨setLastRun nid newRow.run_id s.notifications, inserted, s.nextRunId + 1⟩, .ok newRow)
  | _, _ => (s, .error createRunValidationMsg)

/-! ## `DB.listActiveNotifications` (the due-list query) -/

/-- The run joined by `LEFT JOIN runs ON notifications.last_run_id = runs.run_id`. -/
def joinLastRun (s : DBState) (n : NotificationRow) : Option RunRow :=
  n.last_run_id.bind (fun rid => s.runs.find? (fun r => r.run_id == rid))

/-- The `WHERE` clause: the notification is enabled and either has no last
run or the joined run is older than the TTL.  A dangling pointer joins NULL
columns, whose datetime comparison is NULL, so the row is excluded. -/
def duePred (ttl now : Nat) (s : DBState) (n : NotificationRow) : Bool :=
  n.enabled &&
    (match n.last_run_id with
     | none => true
     | some rid =>
       match s.runs.find? (fun r => r.run_id == rid) with
       | none => false
       | some r => r.timestamp + ttl < now)

/-- The unsorted due rows: filtered notifications, each joined with its last run. -/
def dueRows (ttl now : Nat) (s : DBState) : List ActiveNotification :=
  (s.notifications.filter (duePred ttl now s)).map
    (fun n => toActiveNotification n (joinLastRun s n))

/-- The `ORDER BY runs.timestamp ASC` comparison; NULL timestamps (rows with
no last run) sort first, as in sqlite. -/
def lastRunLE (a b : ActiveNotification) : Bool :=
  match a.timestamp, b.timestamp with
  | none, _ => true
  | some _, none => false
  | some x, some y => x ≤ y

/-- The ordering relation of the due list as a proposition. -/
def dueLE (a b : ActiveNotification) : Prop := lastRunLE a b = true

instance : DecidableRel dueLE := fun _ _ => Bool.decEq _ _

/-- Embedding of `DB.listActiveNotifications(effectiveTtl, limit)`: filter,
join, order by last-run timestamp ascending, and apply the `LIMIT`; a
negative limit is unbounded in sqlite. -/
def listActiveNotifications (ttl now : Nat) (limit : Int) (s : DBState) :
    List ActiveNotification :=
  let rows := List.insertionSort dueLE (dueRows ttl now s)
  if limit < 0 then rows else rows.take limit.toNat

/-! ## `performSingleCheck` (worker source, lines 156-244) -/

/-- Embedding of the per-notification check.  `data` is `none` when the
course payload is missing or has no sections list; `sendErr` injects a
rejection of `notifier.sendNotification` (which the worker catches and
stores on the run); `updErr` and `delErr` inject a pointer-update failure
and a rollback-delete failure inside `createRun`; `now` is the clock.  The
result pairs the store state with the fulfilled value (`.ok count`) or the
rejection that `createRun` propagates. -/
def performSingleCheck (notif : ActiveNotification) (data : Option CourseData)
    (sendErr : Option String) (updErr delErr : Option String) (now : Nat) (s : DBState) :
    DBState × Except String Nat :=
  match data with
  | none => (s, .ok 0)
  | some course =>
    if notif.enabled = false ∨ notif.verified = false then (s, .ok 0)
    else
      let event := computeEvent notif.sectionKey course.sections
      if notif.notificationSent = true ∧ 0 < event.availableSlots then
        -- already notified for these slots: just add the run
        let r := createRun { notificationSent := some true }
          (some notif.notificationId) updErr delErr now s
        (r.1, r.2.map (fun _ => 0))
      else if event.availableSlots ≤ 0 then
        -- closed (possibly resetting the edge): record an unsent run
        let r := createRun { notificationSent := some false }
          (some notif.notificationId) updErr delErr now s
        (r.1, r.2.map (fun _ => 0))
      else
        -- open edge: attempt the send, capture any error, record a sent run
        let r := createRun { error := sendErr, notificationSent := some true }
          (some notif.notificationId) updErr delErr now s
        (r.1, r.2.map (fun _ => 1))

/-- The dispatch decision of the worker branch structure as a function of the
previous run's sent flag and the computed availability: the recorded
`notificationSent` flag and the number of dispatched notifications. -/
def runDecision (prevSent : Bool) (avail : Int) : Bool × Nat :=
  if prevSent = true ∧ 0 < avail then (true, 0)
  else if avail ≤ 0 then (false, 0)
  else (true, 1)

/-- Dispatch count over a sequence of cycles: each cycle feeds the recorded
flag of the previous one back in (the join hands the worker the last run). -/
def cycleDispatches (prev : Bool) (avails : List Int) : Nat :=
  (avails.foldl
    (fun (st : Bool × Nat) a => ((runDecision st.1 a).1, st.2 + (runDecision st.1 a).2))
    (prev, 0)).2

/-! ## The per-group fan-out (`performSlotCheck`, worker source, lines 299-327) -/

/-- One queued per-notification action together with its injected failures. -/
structure CheckJob where
  notif : ActiveNotification
  sendErr : Option String := none
  updErr : Option String := none
  delErr : Option String := none
deriving Repr

/-- The `.catch(err => 0)` around each action: a rejected action counts as
zero dispatched notifications. -/
def countOf : Except String Nat → Nat
  | .ok n => n
  | .error _ => 0

/-- Folding the actions of one course group over the store: every
notification of the group is processed and the dispatch counts are summed,
a rejected action contributing zero. -/
def checkGroup (data : Option CourseData) (jobs : List CheckJob) (now : Nat)
    (s : DBState) : DBState × Nat :=
  jobs.foldl
    (fun acc job =>
      let r := performSingleCheck job.notif data job.sendErr job.updErr job.delErr now acc.1
      (r.1, acc.2 + countOf r.2))
    (s, 0)

/-! ## Retention pruning (`db.deletePastRuns` call, worker source, lines 340-348) -/

/-- Modelled from the spec: the implementation of `db.deletePastRuns` is not
among the sources, only the worker call site is; the spec says `pruneRuns`
deletes runs past retention.  `cutoff` is the oldest timestamp retained. -/
def deletePastRuns (cutoff : Nat) (s : DBState) : DBState :=
  { s with runs := s.runs.filter (fun r => cutoff ≤ r.timestamp) }

/-- The tail of the cycle: the try/catch around `db.deletePastRuns()` logs a
pruning failure and the cycle still resolves with its count. -/
def finishCycle (count : Nat) (pruneFails : Bool) (cutoff : Nat) (s : DBState) :
    DBState × Nat :=
  if pruneFails then (s, count) else (deletePastRuns cutoff s, count)

/-! ## Helper lemmas about the store -/

theorem filter_length_beq_zero (l : List NotificationRow) (nid : Nat) :
    ((l.filter (fun n => n.notification_id == nid)).length == 0) =
      !(l.any (fun n => n.notification_id == nid)) := by
  induction l with
  | nil => rfl
  | cons n rest ih =>
    cases h : (n.notification_id == nid) with
    | true => simp [List.filter_cons, List.any_cons, h]
    | false => simp [List.filter_cons, List.any_cons, h, ih]

theorem rollback_filter (s : DBState) (hf : RunsFresh s) (row : RunRow)
    (hid : row.run_id = s.nextRunId) :
    (s.runs ++ [row]).filter (fun r => r.run_id != s.nextRunId) = s.runs := by
  rw [List.filter_append]
  have h1 : s.runs.filter (fun r => r.run_id != s.nextRunId) = s.runs := by
    apply List.filter_eq_self.mpr
    intro r hr
    have hlt := hf r hr
    simp only [bne_iff_ne, ne_eq]
    omega
  have h2 : [row].filter (fun r => r.run_id != s.nextRunId) = [] := by simp [hid]
  rw [h1, h2, List.append_nil]

theorem setLastRun_any (l : List NotificationRow) (nid rid target : Nat) :
    (setLastRun nid rid l).any (fun n => n.notification_id == target) =
      l.any (fun n => n.notification_id == target) := by
  induction l with
  | nil => rfl
  | cons n rest ih =>
    have hmap : setLastRun nid rid (n :: rest) =
        (if n.notification_id == nid then { n with last_run_id := some rid } else n) ::
          setLastRun nid rid rest := rfl
    rw [hmap, List.any_cons, List.any_cons, ih]
    by_cases h : (n.notification_id == nid) = true
    · rw [if_pos h]
    · rw [if_neg h]

theorem createRun_ok_eq2 (input : RunInput) (dflt : Option Nat) (nid : Nat) (sent : Bool)
    (de : Option String) (now : Nat) (s : DBState)
    (hmy : (match input.notificationId with | none => dflt | some i => some i) = some nid)
    (hsent : input.notificationSent = some sent)
    (hhas : hasNotification s nid = true) :
    createRun input dflt none de now s =
      (⟨setLastRun nid s.nextRunId s.notifications,
        s.runs ++ [⟨s.nextRunId, nid, input.error, input.timestamp.getD now, sent⟩],
        s.nextRunId + 1⟩,
       .ok ⟨s.nextRunId, nid, input.error, input.timestamp.getD now, sent⟩) := by
  have hch : ((s.notifications.filter (fun n => n.notification_id == nid)).length == 0) = false := by
    rw [filter_length_beq_zero]
    unfold hasNotification at hhas
    simp [hhas]
  unfold createRun
  rw [hmy, hsent]
  simp only [hch]
  rw [if_neg]
  simp

theorem createRun_updErr_eq2 (input : RunInput) (dflt : Option Nat) (e : String)
    (nid : Nat) (sent : Bool) (now : Nat) (s : DBState) (hf : RunsFresh s)
    (hmy : (match input.notificationId with | none => dflt | some i => some i) = some nid)
    (hsent : input.notificationSent = some sent) :
    createRun input dflt (some e) none now s =
      (⟨s.notifications, s.runs, s.nextRunId + 1⟩, .error e) := by
  unfold createRun
  rw [hmy, hsent]
  have hroll := rollback_filter s hf
    ⟨s.nextRunId, nid, input.error, input.timestamp.getD now, sent⟩ rfl
  simp only [hroll]

theorem createRun_updErr_orphan (input : RunInput) (dflt : Option Nat) (e d : String)
    (nid : Nat) (sent : Bool) (now : Nat) (s : DBState)
    (hmy : (match input.notificationId with | none => dflt | some i => some i) = some nid)
    (hsent : input.notificationSent = some sent) :
    createRun input dflt (some e) (some d) now s =
      (⟨s.notifications,
        s.runs ++ [⟨s.nextRunId, nid, input.error, input.timestamp.getD now, sent⟩],
        s.nextRunId + 1⟩, .error e) := by
  unfold createRun
  rw [hmy, hsent]

theorem createRun_nomatch_eq2 (input : RunInput) (dflt : Option Nat)
    (nid : Nat) (sent : Bool) (now : Nat) (s : DBState) (hf : RunsFresh s)
    (hmy : (match input.notificationId with | none => dflt | some i => some i) = some nid)
    (hsent : input.notificationSent = some sent)
    (hhas : hasNotification s nid = false) :
    createRun input dflt none none now s =
      (⟨s.notifications, s.runs, s.nextRunId + 1⟩, .error pointerUpdateFailedMsg) := by
  have hch : ((s.notifications.filter (fun n => n.notification_id == nid)).length == 0) = true := by
    rw [filter_length_beq_zero]
    unfold hasNotification at hhas
    simp [hhas]
  unfold createRun
  rw [hmy, hsent]
  have hroll := rollback_filter s hf
    ⟨s.nextRunId, nid, input.error, input.timestamp.getD now, sent⟩ rfl
  simp only [hch, hroll, if_true]

theorem createRun_nomatch_orphan (input : RunInput) (dflt : Option Nat) (d : String)
    (nid : Nat) (sent : Bool) (now : Nat) (s : DBState)
    (hmy : (match input.notificationId with | none => dflt | some i => some i) = some nid)
    (hsent : input.notificationSent = some sent)
    (hhas : hasNotification s nid = false) :
    createRun input dflt none (some d) now s =
      (⟨s.notifications,
        s.runs ++ [⟨s.nextRunId, nid, input.error, input.timestamp.getD now, sent⟩],
        s.nextRunId + 1⟩, .error pointerUpdateFailedMsg) := by
  have hch : ((s.notifications.filter (fun n => n.notification_id == nid)).length == 0) = true := by
    rw [filter_length_beq_zero]
    unfold hasNotification at hhas
    simp [hhas]
  unfold createRun
  rw [hmy, hsent]
  simp only [hch, if_true]

theorem createRun_invalid_eq (input : RunInput) (dflt : Option Nat) (ue de : Option String)
    (now : Nat) (s : DBState)
    (hbad : (match input.notificationId with | none => dflt | some i => some i) = none ∨
      input.notificationSent = none) :
    createRun input dflt ue de now s = (s, .error createRunValidationMsg) := by
  unfold createRun
  rcases hbad with h | h
  · rw [h]
  · rw [h]
    rcases hmy : (match input.notificationId with | none => dflt | some i => some i) with _ | i <;>
      rw [hmy]


theorem countOf_map_zero (e : Except String RunRow) : countOf (e.map (fun _ => 0)) = 0 := by
  cases e <;> rfl

theorem countOf_map_one (e : Except String RunRow) :
    countOf (e.map (fun _ => 1)) = if e.isOk then 1 else 0 := by
  cases e <;> rfl

theorem createRun_worker_isOk (err : Option String) (sent : Bool) (nid : Nat)
    (ue de : Option String) (now : Nat) (s : DBState) (hf : RunsFresh s) :
    (createRun { error := err, notificationSent := some sent } (some nid) ue de now s).2.isOk =
      (ue.isNone && hasNotification s nid) := by
  rcases hue : ue with _ | e
  · by_cases hhas : hasNotification s nid = true
    · rw [createRun_ok_eq2 _ _ nid sent de now s rfl rfl hhas, hhas]
      rfl
    · rcases hde : de with _ | d
      · rw [createRun_nomatch_eq2 _ _ nid sent now s hf rfl rfl (by simpa using hhas),
          Bool.eq_false_iff.mpr hhas]
        rfl
      · rw [createRun_nomatch_orphan _ _ d nid sent now s rfl rfl (by simpa using hhas),
          Bool.eq_false_iff.mpr hhas]
        rfl
  · rcases hde : de with _ | d
    · rw [createRun_updErr_eq2 _ _ e nid sent now s hf rfl rfl]
      rfl
    · rw [createRun_updErr_orphan _ _ e d nid sent now s rfl rfl]
      rfl

theorem createRun_worker_state (err : Option String) (sent : Bool) (nid : Nat)
    (ue de : Option String) (now : Nat) (s : DBState) (hf : RunsFresh s) :
    RunsFresh (createRun { error := err, notificationSent := some sent } (some nid) ue de now s).1 ∧
    List.Sublist s.runs
      (createRun { error := err, notificationSent := some sent } (some nid) ue de now s).1.runs ∧
    s.nextRunId ≤
      (createRun { error := err, notificationSent := some sent } (some nid) ue de now s).1.nextRunId ∧
    ∀ target,
      hasNotification (createRun { error := err, notificationSent := some sent } (some nid) ue de now s).1 target =
        hasNotification s target := by
  have happend : RunsFresh (⟨s.notifications,
      s.runs ++ [⟨s.nextRunId, nid, err, now, sent⟩], s.nextRunId + 1⟩ : DBState) := by
    intro r hr
    show r.run_id < s.nextRunId + 1
    rcases List.mem_append.mp hr with h | h
    · have := hf r h; omega
    · have heq := List.mem_singleton.mp h
      subst heq
      show s.nextRunId < s.nextRunId + 1
      omega
  rcases hue : ue with _ | e
  · by_cases hhas : hasNotification s nid = true
    · rw [createRun_ok_eq2 _ _ nid sent de now s rfl rfl hhas]
      refine ⟨?_, List.sublist_append_left _ _, ?_, ?_⟩
      · intro r hr
        show r.run_id < s.nextRunId + 1
        rcases List.mem_append.mp hr with h | h
        · have := hf r h; omega
        · have heq := List.mem_singleton.mp h
          subst heq
          show s.nextRunId < s.nextRunId + 1
          omega
      · show s.nextRunId ≤ s.nextRunId + 1
        omega
      · intro target
        unfold hasNotification
        exact setLastRun_any _ _ _ _
    · rcases hde : de with _ | d
      · rw [createRun_nomatch_eq2 _ _ nid sent now s hf rfl rfl (by simpa using hhas)]
        refine ⟨?_, List.Sublist.refl _, ?_, fun _ => rfl⟩
        · intro r hr
          show r.run_id < s.nextRunId + 1
          have := hf r hr; omega
        · show s.nextRunId ≤ s.nextRunId + 1
          omega
      · rw [createRun_nomatch_orphan _ _ d nid sent now s rfl rfl (by simpa using hhas)]
        refine ⟨happend, List.sublist_append_left _ _, ?_, fun _ => rfl⟩
        show s.nextRunId ≤ s.nextRunId + 1
        omega
  · rcases hde : de with _ | d
    · rw [createRun_updErr_eq2 _ _ e nid sent now s hf rfl rfl]
      refine ⟨?_, List.Sublist.refl _, ?_, fun _ => rfl⟩
      · intro r hr
        show r.run_id < s.nextRunId + 1
        have := hf r hr; omega
      · show s.nextRunId ≤ s.nextRunId + 1
        omega
    · rw [createRun_updErr_orphan _ _ e d nid sent now s rfl rfl]
      refine ⟨happend, List.sublist_append_left _ _, ?_, fun _ => rfl⟩
      show s.nextRunId ≤ s.nextRunId + 1
      omega

theorem performSingleCheck_ok (notif : ActiveNotification) (course : CourseData)
    (sendErr delErr : Option String) (now : Nat) (s : DBState)
    (hen : notif.enabled = true) (hver : notif.verified = true)
    (hhas : hasNotification s notif.notificationId = true) :
    performSingleCheck notif (some course) sendErr none delErr now s =
      (⟨setLastRun notif.notificationId s.nextRunId s.notifications,
        s.runs ++ [⟨s.nextRunId, notif.notificationId,
          (if (runDecision notif.notificationSent
              (computeEvent notif.sectionKey course.sections).availableSlots).2 = 1
            then sendErr else none),
          now,
          (runDecision notif.notificationSent
            (computeEvent notif.sectionKey course.sections).availableSlots).1⟩],
        s.nextRunId + 1⟩,
       .ok (runDecision notif.notificationSent
          (computeEvent notif.sectionKey course.sections).availableSlots).2) := by
  have hguard : ¬(notif.enabled = false ∨ notif.verified = false) := by
    simp [hen, hver]
  unfold performSingleCheck
  dsimp only
  rw [if_neg hguard]
  by_cases h1 : notif.notificationSent = true ∧
      0 < (computeEvent notif.sectionKey course.sections).availableSlots
  · rw [if_pos h1]
    have hd : runDecision notif.notificationSent
        (computeEvent notif.sectionKey course.sections).availableSlots = (true, 0) := by
      unfold runDecision; rw [if_pos h1]
    rw [createRun_ok_eq2 _ _ notif.notificationId true delErr now s rfl rfl hhas, hd]
    simp [Except.map]
  · rw [if_neg h1]
    by_cases h2 : (computeEvent notif.sectionKey course.sections).availableSlots ≤ 0
    · rw [if_pos h2]
      have hd : runDecision notif.notificationSent
          (computeEvent notif.sectionKey course.sections).availableSlots = (false, 0) := by
        unfold runDecision; rw [if_neg h1, if_pos h2]
      rw [createRun_ok_eq2 _ _ notif.notificationId false delErr now s rfl rfl hhas, hd]
      simp [Except.map]
    · rw [if_neg h2]
      have hd : runDecision notif.notificationSent
          (computeEvent notif.sectionKey course.sections).availableSlots = (true, 1) := by
        unfold runDecision; rw [if_neg h1, if_neg h2]
      rw [createRun_ok_eq2 _ _ notif.notificationId true delErr now s rfl rfl hhas, hd]
      simp [Except.map]


theorem psc_state (notif : ActiveNotification) (data : Option CourseData)
    (sendErr updErr delErr : Option String) (now : Nat) (s : DBState) (hf : RunsFresh s) :
    RunsFresh (performSingleCheck notif data sendErr updErr delErr now s).1 ∧
    List.Sublist s.runs (performSingleCheck notif data sendErr updErr delErr now s).1.runs ∧
    s.nextRunId ≤ (performSingleCheck notif data sendErr updErr delErr now s).1.nextRunId ∧
    ∀ target, hasNotification (performSingleCheck notif data sendErr updErr delErr now s).1 target =
      hasNotification s target := by
  unfold performSingleCheck
  rcases data with _ | course
  · exact ⟨hf, List.Sublist.refl _, le_refl _, fun _ => rfl⟩
  · dsimp only
    by_cases hg : notif.enabled = false ∨ notif.verified = false
    · rw [if_pos hg]
      exact ⟨hf, List.Sublist.refl _, le_refl _, fun _ => rfl⟩
    · rw [if_neg hg]
      by_cases h1 : notif.notificationSent = true ∧
          0 < (computeEvent notif.sectionKey course.sections).availableSlots
      · rw [if_pos h1]
        exact createRun_worker_state none true notif.notificationId updErr delErr now s hf
      · rw [if_neg h1]
        by_cases h2 : (computeEvent notif.sectionKey course.sections).availableSlots ≤ 0
        · rw [if_pos h2]
          exact createRun_worker_state none false notif.notificationId updErr delErr now s hf
        · rw [if_neg h2]
          exact createRun_worker_state sendErr true notif.notificationId updErr delErr now s hf

theorem psc_count_congr (notif : ActiveNotification) (data : Option CourseData)
    (sendErr updErr delErr : Option String) (now : Nat) (s t : DBState)
    (hfs : RunsFresh s) (hft : RunsFresh t)
    (h : hasNotification s notif.notificationId = hasNotification t notif.notificationId) :
    countOf (performSingleCheck notif data sendErr updErr delErr now s).2 =
      countOf (performSingleCheck notif data sendErr updErr delErr now t).2 := by
  unfold performSingleCheck
  rcases data with _ | course
  · rfl
  · dsimp only
    by_cases hg : notif.enabled = false ∨ notif.verified = false
    · rw [if_pos hg, if_pos hg]
    · rw [if_neg hg, if_neg hg]
      by_cases h1 : notif.notificationSent = true ∧
          0 < (computeEvent notif.sectionKey course.sections).availableSlots
      · rw [if_pos h1, if_pos h1]
        dsimp only
        rw [countOf_map_zero, countOf_map_zero]
      · rw [if_neg h1, if_neg h1]
        by_cases h2 : (computeEvent notif.sectionKey course.sections).availableSlots ≤ 0
        · rw [if_pos h2, if_pos h2]
          dsimp only
          rw [countOf_map_zero, countOf_map_zero]
        · rw [if_neg h2, if_neg h2]
          dsimp only
          rw [countOf_map_one, countOf_map_one,
            createRun_worker_isOk _ _ _ _ _ _ _ hfs, createRun_worker_isOk _ _ _ _ _ _ _ hft, h]


theorem checkGroup_fold_count (data : Option CourseData) (now : Nat) :
    ∀ (jobs : List CheckJob) (s : DBState) (c : Nat), RunsFresh s →
      (jobs.foldl (fun acc job =>
        let r := performSingleCheck job.notif data job.sendErr job.updErr job.delErr now acc.1
        (r.1, acc.2 + countOf r.2)) (s, c)).2 =
      c + (jobs.map (fun j =>
        countOf (performSingleCheck j.notif data j.sendErr j.updErr j.delErr now s).2)).sum := by
  intro jobs
  induction jobs with
  | nil => intro s c _; simp
  | cons j rest ih =>
    intro s c hf
    rw [List.foldl_cons, List.map_cons, List.sum_cons]
    dsimp only
    have hstate := psc_state j.notif data j.sendErr j.updErr j.delErr now s hf
    rw [ih (performSingleCheck j.notif data j.sendErr j.updErr j.delErr now s).1 _ hstate.1]
    have hmaps : rest.map (fun jb =>
        countOf (performSingleCheck jb.notif data jb.sendErr jb.updErr jb.delErr now
          (performSingleCheck j.notif data j.sendErr j.updErr j.delErr now s).1).2) =
        rest.map (fun jb =>
          countOf (performSingleCheck jb.notif data jb.sendErr jb.updErr jb.delErr now s).2) := by
      apply List.map_congr_left
      intro jb _
      exact psc_count_congr _ _ _ _ _ _ _ _ hstate.1 hf (by rw [hstate.2.2.2])
    rw [hmaps]
    omega

theorem checkGroup_count (data : Option CourseData) (jobs : List CheckJob) (now : Nat)
    (s : DBState) (hf : RunsFresh s) :
    (checkGroup data jobs now s).2 =
      (jobs.map (fun j =>
        countOf (performSingleCheck j.notif data j.sendErr j.updErr j.delErr now s).2)).sum := by
  unfold checkGroup
  rw [checkGroup_fold_count data now jobs s 0 hf]
  omega

theorem checkGroup_fold_state (data : Option CourseData) (now : Nat) :
    ∀ (jobs : List CheckJob) (s : DBState) (c : Nat), RunsFresh s →
      RunsFresh (jobs.foldl (fun acc job =>
        let r := performSingleCheck job.notif data job.sendErr job.updErr job.delErr now acc.1
        (r.1, acc.2 + countOf r.2)) (s, c)).1 ∧
      List.Sublist s.runs ((jobs.foldl (fun acc job =>
        let r := performSingleCheck job.notif data job.sendErr job.updErr job.delErr now acc.1
        (r.1, acc.2 + countOf r.2)) (s, c)).1.runs) ∧
      s.nextRunId ≤ (jobs.foldl (fun acc job =>
        let r := performSingleCheck job.notif data job.sendErr job.updErr job.delErr now acc.1
        (r.1, acc.2 + countOf r.2)) (s, c)).1.nextRunId ∧
      ∀ target, hasNotification ((jobs.foldl (fun acc job =>
        let r := performSingleCheck job.notif data job.sendErr job.updErr job.delErr now acc.1
        (r.1, acc.2 + countOf r.2)) (s, c)).1) target = hasNotification s target := by
  intro jobs
  induction jobs with
  | nil => intro s c hf; exact ⟨hf, List.Sublist.refl _, le_refl _, fun _ => rfl⟩
  | cons j rest ih =>
    intro s c hf
    rw [List.foldl_cons]
    dsimp only
    have hstate := psc_state j.notif data j.sendErr j.updErr j.delErr now s hf
    have hrest := ih (performSingleCheck j.notif data j.sendErr j.updErr j.delErr now s).1
      (c + countOf (performSingleCheck j.notif data j.sendErr j.updErr j.delErr now s).2) hstate.1
    refine ⟨hrest.1, ?_, ?_, ?_⟩
    · exact List.Sublist.trans hstate.2.1 hrest.2.1
    · exact le_trans hstate.2.2.1 hrest.2.2.1
    · intro target
      rw [hrest.2.2.2, hstate.2.2.2]


theorem maxEvent_go (l : List SectionData) :
    ∀ acc : EventData, (∀ sec ∈ l, ∃ a, sec.available = some a ∧ 0 ≤ a) →
      0 ≤ acc.availableSlots →
      ((l.foldl maxStep acc).availableSlots =
        (l.map (fun sec => sec.available.getD 0)).foldl max acc.availableSlots ∧
       (l.foldl maxStep acc = acc ∨
        ∃ sec ∈ l, sec.available = some (l.foldl maxStep acc).availableSlots ∧
          (l.foldl maxStep acc).totalSlots = sec.capacity ∧
          acc.availableSlots < (l.foldl maxStep acc).availableSlots)) := by
  induction l with
  | nil => intro acc _ _; exact ⟨rfl, Or.inl rfl⟩
  | cons sec rest ih =>
    intro acc hwf hnn
    obtain ⟨a, ha, hnna⟩ := hwf sec (List.mem_cons_self _ _)
    rw [List.foldl_cons, List.map_cons, List.foldl_cons]
    have hstep : maxStep acc sec =
        if acc.availableSlots < a then ⟨a, sec.capacity⟩ else acc := by
      unfold maxStep; rw [ha]
    have hgd : sec.available.getD 0 = a := by rw [ha]; rfl
    rw [hstep, hgd]
    by_cases hlt : acc.availableSlots < a
    · rw [if_pos hlt]
      have hmax : max acc.availableSlots a = a := max_eq_right (le_of_lt hlt)
      rw [hmax]
      have hrest := ih ⟨a, sec.capacity⟩ (fun t ht => hwf t (List.mem_cons_of_mem _ ht)) hnna
      refine ⟨hrest.1, ?_⟩
      rcases hrest.2 with heq | ⟨t, ht, hav, htot, hgt⟩
      · right
        refine ⟨sec, List.mem_cons_self _ _, ?_, ?_, ?_⟩
        · rw [heq, ha]
        · rw [heq]
        · rw [heq]; exact hlt
      · right
        refine ⟨t, List.mem_cons_of_mem _ ht, hav, htot, ?_⟩
        exact lt_trans hlt hgt
    · rw [if_neg hlt]
      have hmax : max acc.availableSlots a = acc.availableSlots :=
        max_eq_left (by omega)
      rw [hmax]
      have hrest := ih acc (fun t ht => hwf t (List.mem_cons_of_mem _ ht)) hnn
      refine ⟨hrest.1, ?_⟩
      rcases hrest.2 with heq | ⟨t, ht, hav, htot, hgt⟩
      · exact Or.inl heq
      · exact Or.inr ⟨t, List.mem_cons_of_mem _ ht, hav, htot, hgt⟩

theorem runDecision_true_pos (a : Int) (h : 0 < a) : runDecision true a = (true, 0) := by
  unfold runDecision; rw [if_pos ⟨rfl, h⟩]

theorem runDecision_false_pos (a : Int) (h : 0 < a) : runDecision false a = (true, 1) := by
  unfold runDecision
  rw [if_neg (by simp), if_neg (by omega)]

theorem runDecision_closed (p : Bool) (a : Int) (h : a ≤ 0) : runDecision p a = (false, 0) := by
  unfold runDecision
  rw [if_neg (by rintro ⟨_, h2⟩; omega), if_pos h]

theorem dispatchFold_true (avails : List Int) (h : ∀ a ∈ avails, 0 < a) (k : Nat) :
    avails.foldl (fun (st : Bool × Nat) a =>
      ((runDecision st.1 a).1, st.2 + (runDecision st.1 a).2)) (true, k) = (true, k) := by
  induction avails generalizing k with
  | nil => rfl
  | cons a rest ih =>
    rw [List.foldl_cons]
    have hstep : (((runDecision (true, k).1 a).1, (true, k).2 + (runDecision (true, k).1 a).2)
        : Bool × Nat) = (true, k) := by
      rw [show ((true, k) : Bool × Nat).1 = true from rfl,
        runDecision_true_pos a (h a (List.mem_cons_self _ _))]
      rfl
    rw [hstep]
    exact ih (fun b hb => h b (List.mem_cons_of_mem _ hb)) k

theorem cycleDispatches_false_pos (avails : List Int) (hne : avails ≠ [])
    (h : ∀ a ∈ avails, 0 < a) : cycleDispatches false avails = 1 := by
  rcases avails with _ | ⟨a, rest⟩
  · exact absurd rfl hne
  · unfold cycleDispatches
    rw [List.foldl_cons]
    have hstep : (((runDecision ((false, 0) : Bool × Nat).1 a).1,
        ((false, 0) : Bool × Nat).2 + (runDecision ((false, 0) : Bool × Nat).1 a).2)
        : Bool × Nat) = (true, 1) := by
      rw [show ((false, 0) : Bool × Nat).1 = false from rfl,
        runDecision_false_pos a (h a (List.mem_cons_self _ _))]
      rfl
    rw [hstep, dispatchFold_true rest (fun b hb => h b (List.mem_cons_of_mem _ hb)) 1]

theorem cycleDispatches_rearm (prev : Bool) (avails : List Int) (hne : avails ≠ [])
    (h : ∀ a ∈ avails, 0 < a) : cycleDispatches prev (0 :: avails) = 1 := by
  unfold cycleDispatches
  rw [List.foldl_cons]
  have hstep : (((runDecision ((prev, 0) : Bool × Nat).1 0).1,
      ((prev, 0) : Bool × Nat).2 + (runDecision ((prev, 0) : Bool × Nat).1 0).2)
      : Bool × Nat) = (false, 0) := by
    rw [runDecision_closed prev 0 (by omega)]
    rfl
  rw [hstep]
  exact cycleDispatches_false_pos avails hne h


theorem criterionEvent_miss (key : List Char) (sections : List SectionData)
    (hnomatch : ∀ c ∈ candidates sections, ∀ idStr, c.id = some idStr →
      cleanChars idStr.toList ≠ key) :
    criterionEvent key sections = ⟨0, some 0⟩ := by
  unfold criterionEvent
  have hfind : ((candidates sections).filter candidateOk).find?
      (fun c => cleanChars (c.id.getD "").toList == key) = none := by
    apply List.find?_eq_none.mpr
    intro c hc
    have hmem := List.mem_of_mem_filter hc
    have hok := List.of_mem_filter hc
    rcases hid : c.id with _ | idStr
    · unfold candidateOk at hok
      rw [hid] at hok
      exact absurd hok (by simp)
    · have hne := hnomatch c hmem idStr hid
      simpa using hne
  rw [hfind]

instance : IsTotal ActiveNotification dueLE := by
  constructor
  intro a b
  unfold dueLE lastRunLE
  cases ha : a.timestamp <;> cases hb : b.timestamp <;> simp <;> omega

instance : IsTrans ActiveNotification dueLE := by
  constructor
  intro a b c hab hbc
  unfold dueLE lastRunLE at *
  cases ha : a.timestamp <;> cases hb : b.timestamp <;> cases hc : c.timestamp <;>
    rw [ha, hb] at hab <;> rw [hb, hc] at hbc <;> simp at * <;> omega


theorem duePred_iff (ttl now : Nat) (s : DBState) (n : NotificationRow)
    (hnodup : (s.runs.map RunRow.run_id).Nodup) :
    duePred ttl now s n = true ↔
      (n.enabled = true ∧ (n.last_run_id = none ∨
        ∃ r ∈ s.runs, n.last_run_id = some r.run_id ∧ r.timestamp + ttl < now)) := by
  unfold duePred
  rw [Bool.and_eq_true]
  apply and_congr Iff.rfl
  rcases hl : n.last_run_id with _ | rid
  · simp
  · dsimp only
    constructor
    · intro h
      rcases hfind : s.runs.find? (fun r => r.run_id == rid) with _ | r
      · rw [hfind] at h
        exact absurd h (by simp)
      · rw [hfind] at h
        right
        have hmem := List.mem_of_find?_eq_some hfind
        have hpred := List.find?_some hfind
        have hid : r.run_id = rid := by simpa using hpred
        exact ⟨r, hmem, by rw [hid], by simpa using h⟩
    · rintro (h | ⟨r, hmem, hid, hts⟩)
      · simp at h
      · have hid' : r.run_id = rid := (Option.some.inj hid).symm
        have hsome : (s.runs.find? (fun r => r.run_id == rid)).isSome := by
          rw [List.find?_isSome]
          exact ⟨r, hmem, by simp [hid']⟩
        rcases hfind : s.runs.find? (fun r => r.run_id == rid) with _ | r'
        · rw [hfind] at hsome; simp at hsome
        · have hmem' := List.mem_of_find?_eq_some hfind
          have hpred' := List.find?_some hfind
          have hid2 : r'.run_id = rid := by simpa using hpred'
          have hrr : r' = r :=
            List.inj_on_of_nodup_map hnodup hmem' hmem (by rw [hid2, hid'])
          rw [hfind, hrr]
          simpa using hts
  
theorem listActive_unbounded (ttl now : Nat) (s : DBState) :
    listActiveNotifications ttl now (-1) s =
      List.insertionSort dueLE (dueRows ttl now s) := by
  unfold listActiveNotifications
  rw [if_pos (by norm_num)]

theorem listActive_mem_dueRows (ttl now : Nat) (limit : Int) (s : DBState) :
    ∀ a ∈ listActiveNotifications ttl now limit s, a ∈ dueRows ttl now s := by
  intro a ha
  unfold listActiveNotifications at ha
  have hmem : a ∈ List.insertionSort dueLE (dueRows ttl now s) := by
    by_cases h : limit < 0
    · rw [if_pos h] at ha; exact ha
    · rw [if_neg h] at ha; exact List.mem_of_mem_take ha
  exact (List.perm_insertionSort dueLE _).mem_iff.mp hmem

theorem listActive_sorted (ttl now : Nat) (limit : Int) (s : DBState) :
    List.Pairwise dueLE (listActiveNotifications ttl now limit s) := by
  have hsorted : List.Pairwise dueLE (List.insertionSort dueLE (dueRows ttl now s)) :=
    List.sorted_insertionSort dueLE _
  unfold listActiveNotifications
  by_cases h : limit < 0
  · rw [if_pos h]; exact hsorted
  · rw [if_neg h]
    exact List.Pairwise.sublist (List.take_sublist _ _) hsorted

theorem dueRows_enabled (ttl now : Nat) (s : DBState) :
    ∀ a ∈ dueRows ttl now s, a.enabled = true := by
  intro a ha
  unfold dueRows at ha
  obtain ⟨n, hn, rfl⟩ := List.mem_map.mp ha
  have hdue := List.of_mem_filter hn
  unfold duePred at hdue
  rw [Bool.and_eq_true] at hdue
  exact hdue.1


theorem asString_toList (s : String) : s.toList.asString = s := rfl

theorem ciStartsWith_refl (l : List Char) : ciStartsWith l l = true := by
  induction l with
  | nil => rfl
  | cons c cs ih => simp [ciStartsWith, ih]

theorem containsCI_of_startsWith (pat l : List Char) (hpos : 0 < l.length)
    (h : ciStartsWith pat l = true) : containsCI pat l = true := by
  rcases l with _ | ⟨c, cs⟩
  · simp at hpos
  · simp [containsCI, h]

theorem replaceCIAux_nomatch (pat rep : List Char) :
    ∀ (l : List Char) (fuel : Nat), l.length ≤ fuel →
      containsCI pat l = false → replaceCIAux pat rep fuel l = l := by
  intro l
  induction l with
  | nil => intro fuel _ _; cases fuel <;> rfl
  | cons c cs ih =>
    intro fuel hfuel hcont
    rcases fuel with _ | f
    · simp at hfuel
    · unfold containsCI at hcont
      rw [Bool.or_eq_false_iff] at hcont
      have hcond : (0 < pat.length && ciStartsWith pat (c :: cs)) = false := by
        rw [hcont.1, Bool.and_false]
      unfold replaceCIAux
      rw [hcond]
      simp only [Bool.false_eq_true, if_false]
      rw [ih f (by simpa using hfuel) hcont.2]

theorem replaceCI_nomatch (s pat rep : String)
    (h : containsCI pat.toList s.toList = false) : replaceCI s pat rep = s := by
  unfold replaceCI
  rw [replaceCIAux_nomatch pat.toList rep.toList s.toList (s.toList.length + 1) (by omega) h]
  exact asString_toList s

theorem replaceCIAux_exact (pat rep : List Char) (l : List Char)
    (hlen : pat.length = l.length) (hpos : 0 < l.length)
    (hci : ciStartsWith pat l = true) :
    replaceCIAux pat rep (l.length + 1) l = rep ++ [] := by
  rcases l with _ | ⟨c, cs⟩
  · simp at hpos
  · have hcond : (0 < pat.length && ciStartsWith pat (c :: cs)) = true := by
      rw [hci, Bool.and_true]
      simp [hlen]
    unfold replaceCIAux
    rw [hcond]
    simp only [if_true]
    have hdrop : (c :: cs).drop pat.length = [] := by
      rw [hlen]
      exact List.drop_length _
    rw [hdrop]
    rfl

theorem replaceCI_exact (s pat rep : String)
    (hlen : pat.toList.length = s.toList.length) (hpos : 0 < s.toList.length)
    (hci : ciStartsWith pat.toList s.toList = true) : replaceCI s pat rep = rep := by
  unfold replaceCI
  rw [replaceCIAux_exact pat.toList rep.toList s.toList hlen hpos hci, List.append_nil]
  exact asString_toList rep

theorem formatFold_nomatch (l : List (String × JSVal)) (msg : String)
    (h : ∀ kv ∈ l, containsCI kv.1.toList msg.toList = false) :
    l.foldl (fun m kv => replaceCI m kv.1 (substitutedText kv.2)) msg = msg := by
  induction l with
  | nil => rfl
  | cons kv rest ih =>
    rw [List.foldl_cons, replaceCI_nomatch msg kv.1 _ (h kv (List.mem_cons_self _ _))]
    exact ih (fun kv2 h2 => h kv2 (List.mem_cons_of_mem _ h2))


theorem formatMessage_single_token (appName timeStr t k : String) (v : JSVal)
    (hpos : 0 < t.toList.length)
    (hlen : k.toList.length = t.toList.length)
    (hci : ciStartsWith k.toList t.toList = true)
    (happ : containsCI "$app".toList t.toList = false)
    (htime : containsCI "$time".toList t.toList = false) :
    formatMessage appName timeStr t [(k, v)] = substitutedText v := by
  have hkapp : k ≠ "$app" := by
    intro heq
    rw [heq] at hci
    have hc := containsCI_of_startsWith "$app".toList t.toList hpos hci
    rw [hc] at happ
    exact absurd happ (by simp)
  have hktime : k ≠ "$time" := by
    intro heq
    rw [heq] at hci
    have hc := containsCI_of_startsWith "$time".toList t.toList hpos hci
    rw [hc] at htime
    exact absurd htime (by simp)
  have hmerge : objMerge [("$app", JSVal.str appName), ("$time", JSVal.str timeStr)] [(k, v)] =
      [("$app", JSVal.str appName), ("$time", JSVal.str timeStr)] ++ [(k, v)] := by
    unfold objMerge
    rw [List.foldl_cons, List.foldl_nil]
    unfold objSet
    rw [if_neg]
    intro hany
    simp only [List.any_cons, List.any_nil, Bool.or_eq_true] at hany
    rcases hany with h | h | h
    · have heq : ("$app" : String) = k := by simpa using h
      exact hkapp heq.symm
    · have heq : ("$time" : String) = k := by simpa using h
      exact hktime heq.symm
    · simp at h
  unfold formatMessage
  rw [hmerge, List.foldl_append]
  rw [formatFold_nomatch _ t (by
    intro kv hkv
    rcases hkv with _ | ⟨_, hkv⟩
    · exact happ
    · rcases hkv with _ | ⟨_, hkv⟩
      · exact htime
      · cases hkv)]
  rw [List.foldl_cons, List.foldl_nil]
  exact replaceCI_exact t k _ hlen hpos hci


/-- C1: for every subscription evaluated in a cycle the dispatch decision is
exactly the edge-trigger table applied to the pair of the previous run's
`notificationSent` flag and the computed `availableSlots`: the recorded run
carries the table's flag and the dispatch count is the table's count
(previous unsent and zero availability records unsent and dispatches
nothing; previous unsent and positive availability dispatches once and
records sent; previous sent and positive availability records sent without
dispatching; previous sent and zero availability records unsent without
dispatching).  Consequently over any cycle sequence with availability
staying positive exactly one dispatch occurs, and after a drop to zero
followed by positive availability exactly one further dispatch occurs. -/
theorem c1_edge_trigger_decision :
    (∀ (notif : ActiveNotification) (course : CourseData) (sendErr delErr : Option String)
      (now : Nat) (s : DBState),
      notif.enabled = true → notif.verified = true →
      hasNotification s notif.notificationId = true →
      (performSingleCheck notif (some course) sendErr none delErr now s).1.runs =
        s.runs ++ [⟨s.nextRunId, notif.notificationId,
          (if (runDecision notif.notificationSent
              (computeEvent notif.sectionKey course.sections).availableSlots).2 = 1
            then sendErr else none), now,
          (runDecision notif.notificationSent
            (computeEvent notif.sectionKey course.sections).availableSlots).1⟩] ∧
      (performSingleCheck notif (some course) sendErr none delErr now s).2 =
        .ok (runDecision notif.notificationSent
          (computeEvent notif.sectionKey course.sections).availableSlots).2) ∧
    (runDecision false 0 = (false, 0) ∧
     (∀ a : Int, 0 < a → runDecision false a = (true, 1)) ∧
     (∀ a : Int, 0 < a → runDecision true a = (true, 0)) ∧
     runDecision true 0 = (false, 0)) ∧
    (∀ avails : List Int, avails ≠ [] → (∀ a ∈ avails, 0 < a) →
      cycleDispatches false avails = 1) ∧
    (∀ (prev : Bool) (avails : List Int), avails ≠ [] → (∀ a ∈ avails, 0 < a) →
      cycleDispatches prev (0 :: avails) = 1) := by
  refine ⟨?_, ⟨?_, ?_, ?_, ?_⟩, ?_, ?_⟩
  · intro notif course sendErr delErr now s hen hver hhas
    rw [performSingleCheck_ok notif course sendErr delErr now s hen hver hhas]
    exact ⟨rfl, rfl⟩
  · exact runDecision_closed false 0 (by omega)
  · exact fun a ha => runDecision_false_pos a ha
  · exact fun a ha => runDecision_true_pos a ha
  · exact runDecision_closed true 0 (by omega)
  · exact cycleDispatches_false_pos
  · exact cycleDispatches_rearm

/-- C2 (amended): `createRun` is atomic up to a failed rollback delete.  On
success the owning notification's `last_run_id` equals the new run's id (and
the new run row is present).  On any failure the notifications table is
untouched and, provided the rollback `DELETE` itself succeeds, the runs
table is exactly as before (the inserted row was rolled back); a failing
rollback delete is caught and only logged, leaving the orphan row (see the
counterexample).  In every failure with both required fields supplied the
surfaced error is the original pointer-update error or the synthesized
persistence error. -/
theorem c2_createRun_atomic (input : RunInput) (dflt : Option Nat) (ue de : Option String)
    (now : Nat) (s : DBState) (hf : RunsFresh s) :
    (∀ s' run, createRun input dflt ue de now s = (s', .ok run) →
      run ∈ s'.runs ∧
      (∃ n ∈ s'.notifications, n.notification_id = run.notification_id ∧
        n.last_run_id = some run.run_id) ∧
      (∀ n ∈ s'.notifications, n.notification_id = run.notification_id →
        n.last_run_id = some run.run_id)) ∧
    (∀ s' e, createRun input dflt ue de now s = (s', .error e) →
      s'.notifications = s.notifications ∧
      (de = none → s'.runs = s.runs) ∧
      ((match input.notificationId with | none => dflt | some i => some i) ≠ none →
        input.notificationSent ≠ none →
        (ue = some e ∨ (ue = none ∧ e = pointerUpdateFailedMsg)))) := by
  rcases hmy : (match input.notificationId with | none => dflt | some i => some i) with _ | nid
  · have heq := createRun_invalid_eq input dflt ue de now s (Or.inl hmy)
    constructor
    · intro s' run hcr
      rw [heq] at hcr
      injection hcr with h1 h2
      cases h2
    · intro s' e hcr
      rw [heq] at hcr
      injection hcr with h1 h2
      subst h1
      exact ⟨rfl, fun _ => rfl, fun hmy2 _ => absurd (by first | rfl | exact hmy) hmy2⟩
  · rcases hsent : input.notificationSent with _ | sent
    · have heq := createRun_invalid_eq input dflt ue de now s (Or.inr hsent)
      constructor
      · intro s' run hcr
        rw [heq] at hcr
        injection hcr with h1 h2
        cases h2
      · intro s' e hcr
        rw [heq] at hcr
        injection hcr with h1 h2
        subst h1
        exact ⟨rfl, fun _ => rfl, fun _ hsent2 => absurd rfl hsent2⟩
    · rcases hue : ue with _ | e0
      · by_cases hhas : hasNotification s nid = true
        · have heq := createRun_ok_eq2 input dflt nid sent de now s hmy hsent hhas
          constructor
          · intro s' run hcr
            rw [heq] at hcr
            injection hcr with h1 h2
            injection h2 with h2
            subst h1
            subst h2
            refine ⟨List.mem_append_right _ (List.mem_singleton_self _), ?_, ?_⟩
            · unfold hasNotification at hhas
              rw [List.any_eq_true] at hhas
              obtain ⟨n0, hn0, hid0⟩ := hhas
              refine ⟨{ n0 with last_run_id := some s.nextRunId }, ?_, ?_, rfl⟩
              · unfold setLastRun
                have hmem := List.mem_map_of_mem
                  (fun n => if n.notification_id == nid then
                    { n with last_run_id := some s.nextRunId } else n) hn0
                dsimp only at hmem
                rw [if_pos hid0] at hmem
                exact hmem
              · show n0.notification_id = nid
                exact beq_iff_eq.mp hid0
            · intro n hn hid
              unfold setLastRun at hn
              obtain ⟨m, hm, hfm⟩ := List.mem_map.mp hn
              by_cases hmid : (m.notification_id == nid) = true
              · rw [if_pos hmid] at hfm
                rw [← hfm]
              · rw [if_neg hmid] at hfm
                subst hfm
                exact absurd (beq_iff_eq.mpr hid) hmid
          · intro s' e hcr
            rw [heq] at hcr
            injection hcr with h1 h2
            cases h2
        · rcases hde : de with _ | d
          · have heq := createRun_nomatch_eq2 input dflt nid sent now s hf hmy hsent
              (by simpa using hhas)
            constructor
            · intro s' run hcr
              rw [heq] at hcr
              injection hcr with h1 h2
              cases h2
            · intro s' e hcr
              rw [heq] at hcr
              injection hcr with h1 h2
              injection h2 with h2
              subst h1
              exact ⟨rfl, fun _ => rfl, fun _ _ => Or.inr ⟨rfl, h2.symm⟩⟩
          · have heq := createRun_nomatch_orphan input dflt d nid sent now s hmy hsent
              (by simpa using hhas)
            constructor
            · intro s' run hcr
              rw [heq] at hcr
              injection hcr with h1 h2
              cases h2
            · intro s' e hcr
              rw [heq] at hcr
              injection hcr with h1 h2
              injection h2 with h2
              subst h1
              exact ⟨rfl, fun hde2 => Option.noConfusion hde2,
                fun _ _ => Or.inr ⟨rfl, h2.symm⟩⟩
      · rcases hde : de with _ | d
        · have heq := createRun_updErr_eq2 input dflt e0 nid sent now s hf hmy hsent
          constructor
          · intro s' run hcr
            rw [heq] at hcr
            injection hcr with h1 h2
            cases h2
          · intro s' e hcr
            rw [heq] at hcr
            injection hcr with h1 h2
            injection h2 with h2
            subst h1
            subst h2
            exact ⟨rfl, fun _ => rfl, fun _ _ => Or.inl rfl⟩
        · have heq := createRun_updErr_orphan input dflt e0 d nid sent now s hmy hsent
          constructor
          · intro s' run hcr
            rw [heq] at hcr
            injection hcr with h1 h2
            cases h2
          · intro s' e hcr
            rw [heq] at hcr
            injection hcr with h1 h2
            injection h2 with h2
            subst h1
            subst h2
            exact ⟨rfl, fun hde2 => Option.noConfusion hde2, fun _ _ => Or.inl rfl⟩

/-- C4: a disabled or unverified subscription never reaches the evaluation
step: the due-list query only ever returns enabled rows, and the worker's
per-subscription guard returns zero for a disabled or unverified
subscription while leaving the store untouched, so no seat computation, run
record or dispatch happens for it. -/
theorem c4_gating :
    (∀ (ttl now : Nat) (limit : Int) (s : DBState),
      ∀ a ∈ listActiveNotifications ttl now limit s, a.enabled = true) ∧
    (∀ (notif : ActiveNotification) (data : Option CourseData)
      (sendErr updErr delErr : Option String) (now : Nat) (s : DBState),
      notif.enabled = false ∨ notif.verified = false →
      performSingleCheck notif data sendErr updErr delErr now s = (s, .ok 0)) := by
  constructor
  · intro ttl now limit s a ha
    exact dueRows_enabled ttl now s a (listActive_mem_dueRows ttl now limit s a ha)
  · intro notif data sendErr updErr delErr now s hguard
    unfold performSingleCheck
    rcases data with _ | course
    · rfl
    · dsimp only
      rw [if_pos hguard]

/-- C5: after the course groups settle the cycle prunes the run ledger:
`deletePastRuns` keeps exactly the runs at or after the retention cutoff
(every older run is deleted), and a pruning failure is swallowed by the
worker's try/catch, leaving the store as it was and the cycle's count
intact, so pruning failure never fails the cycle. -/
theorem c5_prune_best_effort :
    (∀ (cutoff : Nat) (s : DBState) (r : RunRow),
      r ∈ (deletePastRuns cutoff s).runs ↔ (r ∈ s.runs ∧ cutoff ≤ r.timestamp)) ∧
    (∀ (count cutoff : Nat) (s : DBState),
      finishCycle count true cutoff s = (s, count)) ∧
    (∀ (count cutoff : Nat) (s : DBState),
      (finishCycle count false cutoff s).2 = count) := by
  refine ⟨?_, ?_, ?_⟩
  · intro cutoff s r
    unfold deletePastRuns
    simp [List.mem_filter]
  · intro count cutoff s
    rfl
  · intro count cutoff s
    rfl

/-- C10: when availability is positive, the previous run was not marked
sent, and the send rejects, the worker still records a run with
`notificationSent = true` carrying the captured error and counts one
dispatched notification; and while availability stays positive the decision
for a sent previous run dispatches nothing, so no retry happens for the
open window. -/
theorem c10_failed_send_suppression (notif : ActiveNotification) (course : CourseData)
    (e : String) (delErr : Option String) (now : Nat) (s : DBState)
    (hen : notif.enabled = true) (hver : notif.verified = true)
    (hprev : notif.notificationSent = false)
    (hpos : 0 < (computeEvent notif.sectionKey course.sections).availableSlots)
    (hhas : hasNotification s notif.notificationId = true) :
    (performSingleCheck notif (some course) (some e) none delErr now s).2 = .ok 1 ∧
    (performSingleCheck notif (some course) (some e) none delErr now s).1.runs =
      s.runs ++ [⟨s.nextRunId, notif.notificationId, some e, now, true⟩] ∧
    (∀ a : Int, 0 < a → runDecision true a = (true, 0)) := by
  have hd : runDecision notif.notificationSent
      (computeEvent notif.sectionKey course.sections).availableSlots = (true, 1) := by
    rw [hprev]
    exact runDecision_false_pos _ hpos
  have heq := performSingleCheck_ok notif course (some e) delErr now s hen hver hhas
  rw [hd] at heq
  rw [heq]
  exact ⟨rfl, rfl, fun a ha => runDecision_true_pos a ha⟩


/-- C3: failures are isolated inside a course group: the group's dispatch
count is the sum of per-subscription counts each computed as if alone
against the initial store, a failed subscription contributes zero, existing
runs survive the whole group, and every sibling whose own check succeeds
still gets its run recorded with the decision flag of the table. -/
theorem c3_group_isolation (data : Option CourseData) (jobs : List CheckJob) (now : Nat)
    (s : DBState) (hf : RunsFresh s) :
    (checkGroup data jobs now s).2 =
      (jobs.map (fun j =>
        countOf (performSingleCheck j.notif data j.sendErr j.updErr j.delErr now s).2)).sum ∧
    (∀ (j : CheckJob) (e : String),
      (performSingleCheck j.notif data j.sendErr j.updErr j.delErr now s).2 = .error e →
      countOf (performSingleCheck j.notif data j.sendErr j.updErr j.delErr now s).2 = 0) ∧
    List.Sublist s.runs (checkGroup data jobs now s).1.runs ∧
    (∀ (l1 l2 : List CheckJob) (j : CheckJob) (course : CourseData),
      jobs = l1 ++ j :: l2 → data = some course →
      j.notif.enabled = true → j.notif.verified = true → j.updErr = none →
      hasNotification s j.notif.notificationId = true →
      ∃ r ∈ (checkGroup data jobs now s).1.runs,
        r.notification_id = j.notif.notificationId ∧ s.nextRunId ≤ r.run_id ∧
        r.notification_sent = (runDecision j.notif.notificationSent
          (computeEvent j.notif.sectionKey course.sections).availableSlots).1) := by
  refine ⟨checkGroup_count data jobs now s hf, ?_, ?_, ?_⟩
  · intro j e herr
    rw [herr]
    rfl
  · unfold checkGroup
    exact (checkGroup_fold_state data now jobs s 0 hf).2.1
  · intro l1 l2 j course hjobs hdata hen hver hue hhas
    subst hjobs
    subst hdata
    unfold checkGroup
    rw [List.foldl_append, List.foldl_cons]
    have h1 := checkGroup_fold_state (some course) now l1 s 0 hf
    generalize hacc : (l1.foldl (fun acc job =>
      let r := performSingleCheck job.notif (some course) job.sendErr job.updErr job.delErr
        now acc.1
      (r.1, acc.2 + countOf r.2)) (s, 0)) = acc at h1 ⊢
    dsimp only
    rw [hue]
    have hhas1 : hasNotification acc.1 j.notif.notificationId = true := by
      rw [h1.2.2.2]
      exact hhas
    rw [performSingleCheck_ok j.notif course j.sendErr j.delErr now acc.1 hen hver hhas1]
    dsimp only
    have hfresh2 : RunsFresh (⟨setLastRun j.notif.notificationId acc.1.nextRunId acc.1.notifications,
        acc.1.runs ++ [⟨acc.1.nextRunId, j.notif.notificationId,
          (if (runDecision j.notif.notificationSent
              (computeEvent j.notif.sectionKey course.sections).availableSlots).2 = 1
            then j.sendErr else none), now,
          (runDecision j.notif.notificationSent
            (computeEvent j.notif.sectionKey course.sections).availableSlots).1⟩],
        acc.1.nextRunId + 1⟩ : DBState) := by
      intro r hr
      show r.run_id < acc.1.nextRunId + 1
      rcases List.mem_append.mp hr with h | h
      · have := h1.1 r h
        omega
      · have heq := List.mem_singleton.mp h
        subst heq
        show acc.1.nextRunId < acc.1.nextRunId + 1
        omega
    have h2 := checkGroup_fold_state (some course) now l2
      ⟨setLastRun j.notif.notificationId acc.1.nextRunId acc.1.notifications,
        acc.1.runs ++ [⟨acc.1.nextRunId, j.notif.notificationId,
          (if (runDecision j.notif.notificationSent
              (computeEvent j.notif.sectionKey course.sections).availableSlots).2 = 1
            then j.sendErr else none), now,
          (runDecision j.notif.notificationSent
            (computeEvent j.notif.sectionKey course.sections).availableSlots).1⟩],
        acc.1.nextRunId + 1⟩
      (acc.2 + countOf (Except.ok (runDecision j.notif.notificationSent
        (computeEvent j.notif.sectionKey course.sections).availableSlots).2)) hfresh2
    refine ⟨⟨acc.1.nextRunId, j.notif.notificationId,
      (if (runDecision j.notif.notificationSent
          (computeEvent j.notif.sectionKey course.sections).availableSlots).2 = 1
        then j.sendErr else none), now,
      (runDecision j.notif.notificationSent
        (computeEvent j.notif.sectionKey course.sections).availableSlots).1⟩, ?_, rfl, ?_, rfl⟩
    · apply h2.2.1.subset
      exact List.mem_append_right _ (List.mem_singleton_self _)
    · show s.nextRunId ≤ acc.1.nextRunId
      exact h1.2.2.1

/-- C6 (amended): with no section criterion and well-formed sections the
evaluator returns the maximum `available` across the sections, never a sum;
when that maximum is positive the reported `totalSlots` is the capacity of
a maximum-attaining section; when no section has positive availability the
event is zero availability with zero total; the empty sections list yields
zero/zero. -/
theorem c6_max_semantics (sections : List SectionData)
    (hwf : ∀ sec ∈ sections, ∃ a, sec.available = some a ∧ 0 ≤ a) :
    (computeEvent none sections).availableSlots =
      (sections.map (fun sec => sec.available.getD 0)).foldl max 0 ∧
    (0 < (computeEvent none sections).availableSlots →
      ∃ sec ∈ sections, sec.available = some (computeEvent none sections).availableSlots ∧
        (computeEvent none sections).totalSlots = sec.capacity) ∧
    (computeEvent none sections = ⟨0, some 0⟩ ∨
      0 < (computeEvent none sections).availableSlots) ∧
    (sections = [] → computeEvent none sections = ⟨0, some 0⟩) := by
  have hgo := maxEvent_go sections ⟨0, some 0⟩ hwf (by norm_num)
  refine ⟨hgo.1, ?_, ?_, ?_⟩
  · intro hpos
    rcases hgo.2 with heq | ⟨sec, hsec, hav, htot, _⟩
    · rw [show computeEvent none sections = sections.foldl maxStep ⟨0, some 0⟩ from rfl,
        heq] at hpos
      exact absurd hpos (by norm_num)
    · exact ⟨sec, hsec, hav, htot⟩
  · rcases hgo.2 with heq | ⟨_, _, _, _, hgt⟩
    · exact Or.inl heq
    · exact Or.inr hgt
  · intro h
    subst h
    rfl

/-- C7 (amended): a present section criterion whose cleaned form is
non-empty and matches no candidate identifier (case-insensitively, after
trimming) makes the evaluator return zero availability and zero total
rather than raising an error. -/
theorem c7_unmatched_criterion (crit : String) (sections : List SectionData)
    (hkey : 0 < (cleanChars crit.toList).length)
    (hnomatch : ∀ c ∈ candidates sections, ∀ idStr, c.id = some idStr →
      cleanChars idStr.toList ≠ cleanChars crit.toList) :
    computeEvent (some crit) sections = ⟨0, some 0⟩ := by
  unfold computeEvent
  dsimp only
  rw [if_pos hkey]
  exact criterionEvent_miss _ sections hnomatch

/-- C8: the due-list query filter accepts exactly the enabled notifications
whose last run is absent or older than the TTL; with the unbounded limit the
result is a permutation of all filtered rows joined with their last runs;
every result is ordered oldest-last-run-first (rows with no run first); and
the unbounded limit imposes no bound on the number of results. -/
theorem c8_due_list (ttl now : Nat) (s : DBState)
    (hnodup : (s.runs.map RunRow.run_id).Nodup) :
    (∀ n ∈ s.notifications, duePred ttl now s n = true ↔
      (n.enabled = true ∧ (n.last_run_id = none ∨
        ∃ r ∈ s.runs, n.last_run_id = some r.run_id ∧ r.timestamp + ttl < now))) ∧
    List.Perm (listActiveNotifications ttl now (-1) s) (dueRows ttl now s) ∧
    (∀ limit : Int, ∀ a ∈ listActiveNotifications ttl now limit s, a ∈ dueRows ttl now s) ∧
    (∀ limit : Int, List.Pairwise dueLE (listActiveNotifications ttl now limit s)) ∧
    (listActiveNotifications ttl now (-1) s).length =
      (s.notifications.filter (duePred ttl now s)).length := by
  refine ⟨fun n _ => duePred_iff ttl now s n hnodup, ?_,
    fun limit => listActive_mem_dueRows ttl now limit s,
    fun limit => listActive_sorted ttl now limit s, ?_⟩
  · rw [listActive_unbounded]
    exact List.perm_insertionSort dueLE _
  · rw [listActive_unbounded]
    have hperm := List.perm_insertionSort dueLE (dueRows ttl now s)
    rw [hperm.length_eq]
    unfold dueRows
    rw [List.length_map]

/-- C9 (amended): the formatter substitutes a full token case-insensitively
with the bag value's text when the value is truthy and with the fixed
fallback when it is falsy (in particular the `undefined` coercion text and
the empty string are never spliced in for a falsy value); a template whose
tokens match no key of the merged bag is returned verbatim, so a variable
referenced in the template but absent from the bag keeps its literal token
instead of rendering as the fallback. -/
theorem c9_format_fallback :
    (∀ (appName timeStr t k : String) (v : JSVal),
      0 < t.toList.length → k.toList.length = t.toList.length →
      ciStartsWith k.toList t.toList = true →
      containsCI "$app".toList t.toList = false →
      containsCI "$time".toList t.toList = false →
      formatMessage appName timeStr t [(k, v)] = substitutedText v) ∧
    (∀ v, jsTruthy v = false → substitutedText v = FALLBACK_VARIABLE_VALUE) ∧
    (∀ v, jsTruthy v = true → substitutedText v = jsToString v) ∧
    substitutedText JSVal.undef = FALLBACK_VARIABLE_VALUE ∧
    substitutedText (JSVal.str "") = FALLBACK_VARIABLE_VALUE ∧
    (∀ (appName timeStr t : String) (bag : List (String × JSVal)),
      (∀ kv ∈ objMerge [("$app", JSVal.str appName), ("$time", JSVal.str timeStr)] bag,
        containsCI kv.1.toList t.toList = false) →
      formatMessage appName timeStr t bag = t) := by
  refine ⟨formatMessage_single_token, ?_, ?_, rfl, rfl, ?_⟩
  · intro v hv
    simp [substitutedText, hv]
  · intro v hv
    simp [substitutedText, hv]
  · intro appName timeStr t bag h
    unfold formatMessage
    exact formatFold_nomatch _ t h


/-! ## Concrete fixtures used by the witnesses -/

/-- A section with five open seats out of thirty. -/
def wSection : SectionData := ⟨some "0101", some 5, some 30, none⟩

/-- A course consisting of that one section. -/
def wCourse : CourseData := ⟨[wSection]⟩

/-- A stored notification row. -/
def wNotifRow : NotificationRow :=
  ⟨1, none, "key1", "UOG", "CIS1500", some "0101", "F19", "+15551230000", true, true⟩

/-- A store holding that one notification and no runs. -/
def wState : DBState := ⟨[wNotifRow], [], 10⟩

/-- The join row for that notification with no previous run. -/
def wNotif : ActiveNotification :=
  ⟨1, none, "key1", "UOG", "CIS1500", some "0101", "F19", "+15551230000", true, true,
    none, none, none, false⟩

/-- The same join row with an unverified contact. -/
def wNotifUnverified : ActiveNotification :=
  ⟨1, none, "key1", "UOG", "CIS1500", some "0101", "F19", "+15551230000", true, false,
    none, none, none, false⟩

/-- A group with one healthy job and one job whose pointer update fails. -/
def wJobs : List CheckJob := [⟨wNotif, none, none, none⟩, ⟨wNotif, none, some "dbfail", none⟩]

/-- A store exercising all due-list cases: no run, stale run, disabled, fresh run. -/
def wStateDue : DBState :=
  ⟨[⟨1, none, "a", "I", "C", none, "T", "c", true, true⟩,
    ⟨2, some 5, "b", "I", "C", none, "T", "c", true, true⟩,
    ⟨3, some 6, "c", "I", "C", none, "T", "c", false, true⟩,
    ⟨4, some 7, "d", "I", "C", none, "T", "c", true, true⟩],
   [⟨5, 2, none, 50, true⟩, ⟨6, 3, none, 10, false⟩, ⟨7, 4, none, 90, true⟩], 10⟩

theorem c1_edge_trigger_decision_witness :
    (wNotif.enabled = true ∧ wNotif.verified = true ∧
      hasNotification wState wNotif.notificationId = true) ∧
    (performSingleCheck wNotif (some wCourse) none none none 100 wState).2 =
      .ok (runDecision wNotif.notificationSent
        (computeEvent wNotif.sectionKey wCourse.sections).availableSlots).2 ∧
    cycleDispatches false [5, 5, 5] = 1 ∧
    cycleDispatches true (0 :: [5, 5, 5]) = 1 := by
  refine ⟨⟨rfl, rfl, by decide⟩, ?_, ?_, ?_⟩
  · exact (c1_edge_trigger_decision.1 wNotif wCourse none none 100 wState rfl rfl (by decide)).2
  · exact c1_edge_trigger_decision.2.2.1 [5, 5, 5] (by decide) (by decide)
  · exact c1_edge_trigger_decision.2.2.2 true [5, 5, 5] (by decide) (by decide)

/-- C2 counterexample: the pointer update throws and the rollback delete
throws as well; the source catches the delete failure and only logs it, so
the just-inserted run row remains in the store — an orphan no notification
points to — while the original error is surfaced.  This refutes the
original claim's unconditional "the just-inserted run row is deleted, so no
orphan run with a stale pointer remains". -/
theorem c2_counterexample :
    (createRun { notificationSent := some true } (some 1) (some "boom") (some "delfail")
      100 wState).2 = .error "boom" ∧
    (⟨10, 1, none, 100, true⟩ : RunRow) ∈
      (createRun { notificationSent := some true } (some 1) (some "boom") (some "delfail")
        100 wState).1.runs ∧
    (⟨10, 1, none, 100, true⟩ : RunRow) ∉ wState.runs ∧
    (∀ n ∈ (createRun { notificationSent := some true } (some 1) (some "boom") (some "delfail")
        100 wState).1.notifications, n.last_run_id ≠ some 10) := by
  decide

theorem c2_createRun_atomic_witness :
    RunsFresh wState ∧
    (createRun { notificationSent := some true } (some 1) (some "boom") none 100 wState).1.runs =
      wState.runs ∧
    (createRun { notificationSent := some true } (some 1) (some "boom") none 100 wState).1.notifications =
      wState.notifications := by
  have heq : createRun { notificationSent := some true } (some 1) (some "boom") none 100 wState =
      (⟨wState.notifications, wState.runs, 11⟩, .error "boom") := by decide
  have h := (c2_createRun_atomic { notificationSent := some true } (some 1) (some "boom") none
    100 wState (by decide)).2 _ _ heq
  exact ⟨by decide, by rw [heq], by rw [heq]⟩

theorem c3_group_isolation_witness :
    RunsFresh wState ∧
    (checkGroup (some wCourse) wJobs 100 wState).2 =
      (wJobs.map (fun j =>
        countOf (performSingleCheck j.notif (some wCourse) j.sendErr j.updErr j.delErr
          100 wState).2)).sum := by
  exact ⟨by decide, (c3_group_isolation (some wCourse) wJobs 100 wState (by decide)).1⟩

theorem c4_gating_witness :
    (wNotifUnverified.enabled = false ∨ wNotifUnverified.verified = false) ∧
    performSingleCheck wNotifUnverified (some wCourse) none none none 100 wState =
      (wState, .ok 0) := by
  exact ⟨Or.inr rfl,
    c4_gating.2 wNotifUnverified (some wCourse) none none none 100 wState (Or.inr rfl)⟩

theorem c5_prune_best_effort_witness :
    finishCycle 3 true 50 wState = (wState, 3) :=
  c5_prune_best_effort.2.1 3 50 wState

/-- C6 counterexample: with a single section showing zero of thirty seats,
the evaluator reports `totalSlots = 0`, not that section's capacity, even
though that section attains the maximum `available`; so "with that
section's capacity as totalSlots" fails when the maximum is zero. -/
theorem c6_counterexample :
    (computeEvent none [⟨some "0101", some 0, some 30, none⟩]).availableSlots = 0 ∧
    (computeEvent none [⟨some "0101", some 0, some 30, none⟩]).totalSlots = some 0 ∧
    ∀ sec ∈ [(⟨some "0101", some 0, some 30, none⟩ : SectionData)],
      sec.available = some 0 ∧
        sec.capacity ≠ (computeEvent none [⟨some "0101", some 0, some 30, none⟩]).totalSlots := by
  decide

theorem c6_max_semantics_witness :
    (∀ sec ∈ wCourse.sections, ∃ a, sec.available = some a ∧ 0 ≤ a) ∧
    (computeEvent none wCourse.sections).availableSlots =
      (wCourse.sections.map (fun sec => sec.available.getD 0)).foldl max 0 := by
  exact ⟨by decide, (c6_max_semantics wCourse.sections (by decide)).1⟩

/-- C7 counterexample: the criterion `" "` trims to the empty string, so it
matches no identifier, yet the evaluator falls into the whole-course branch
and reports availability 3 instead of the claimed zero/zero. -/
theorem c7_counterexample :
    cleanChars " ".toList = [] ∧
    (∀ c ∈ candidates [(⟨some "a", some 3, some 5, none⟩ : SectionData)], ∀ idStr : String,
      c.id = some idStr → cleanChars idStr.toList ≠ cleanChars " ".toList) ∧
    (computeEvent (some " ") [⟨some "a", some 3, some 5, none⟩]).availableSlots = 3 := by
  refine ⟨by decide, ?_, by decide⟩
  intro c hc idStr hid
  have hc1 : c = ⟨some "a", some 3, some 5⟩ := by
    simpa [candidates, sectionCandidate] using hc
  subst hc1
  injection hid with h
  subst h
  decide

theorem c7_unmatched_criterion_witness :
    (0 < (cleanChars " B202 ".toList).length) ∧
    computeEvent (some " B202 ") [wSection] = ⟨0, some 0⟩ := by
  refine ⟨by decide, c7_unmatched_criterion " B202 " [wSection] (by decide) ?_⟩
  intro c hc idStr hid
  have hc1 : c = ⟨some "0101", some 5, some 30⟩ := by
    simpa [candidates, wSection, sectionCandidate] using hc
  subst hc1
  injection hid with h
  subst h
  decide

theorem c8_due_list_witness :
    ((wStateDue.runs.map RunRow.run_id).Nodup) ∧
    (listActiveNotifications 20 100 (-1) wStateDue).length =
      (wStateDue.notifications.filter (duePred 20 100 wStateDue)).length := by
  exact ⟨by decide, (c8_due_list 20 100 wStateDue (by decide)).2.2.2.2⟩

/-- C9 counterexample: the token `$foo` is referenced by the template but
absent from the variable bag; the formatter leaves it verbatim instead of
rendering the fixed fallback token, refuting the claim that absent
variables render as the fallback. -/
theorem c9_counterexample :
    formatMessage "Slotty" "now" "$foo" [] = "$foo" ∧
    formatMessage "Slotty" "now" "$foo" [] ≠ FALLBACK_VARIABLE_VALUE := by
  decide

theorem c9_format_fallback_witness :
    (0 < "$SectionKey".toList.length) ∧
    formatMessage "Slotty" "now" "$SectionKey" [("$sectionKey", JSVal.undef)] =
      FALLBACK_VARIABLE_VALUE := by
  have h := c9_format_fallback.1 "Slotty" "now" "$SectionKey" "$sectionKey" JSVal.undef
    (by decide) (by decide) (by decide) (by decide) (by decide)
  exact ⟨by decide, by rw [h]; rfl⟩

theorem c10_failed_send_suppression_witness :
    (wNotif.enabled = true ∧ wNotif.verified = true ∧ wNotif.notificationSent = false ∧
      0 < (computeEvent wNotif.sectionKey wCourse.sections).availableSlots ∧
      hasNotification wState wNotif.notificationId = true) ∧
    (performSingleCheck wNotif (some wCourse) (some "boom") none none 100 wState).2 = .ok 1 := by
  refine ⟨⟨rfl, rfl, rfl, by decide, by decide⟩, ?_⟩
  exact (c10_failed_send_suppression wNotif wCourse "boom" none 100 wState rfl rfl rfl
    (by decide) (by decide)).1


end Slotty
